import Mathlib

/-!
Shallow embedding of the dispatch-and-lifecycle core of the Uber_rp
repository: the proximity model shared by `matchmaking.py` and
`ridecompletion.py`, the nearest-driver scan `find_best_driver`, the
per-iteration bodies of the two polling workers
(`process_matching_queue`, `simulate_ride_completion`), and a small
transition system over the shared store used to settle the lifecycle
invariants.
-/

namespace UberRp

/-- Embedding of Python `s.replace(" ", "_")` as used on location strings
in `matchmaking.py` line 44 and `ridecompletion.py` line 49. -/
def pyKey (s : String) : String :=
  String.mk (s.data.map fun c => if c = ' ' then '_' else c)

/-- The `Location` enum of `matchmaking.py` lines 17-23 (identical in
`ridecompletion.py` lines 16-23): lookup `Location[key].value`, returning
`none` where Python raises `KeyError`. -/
def locationValue (s : String) : Option Int :=
  match pyKey s with
  | "Downtown_Core" => some 10
  | "Central_Station" => some 20
  | "University_Area" => some 30
  | "The_Suburbs" => some 40
  | "Airport_Terminal" => some 50
  | _ => none

/-- A proximity score: `some n` is a finite distance, `none` is Python's
`float('inf')`. -/
abbrev Score := Option Nat

/-- `calculate_proximity_score` of `matchmaking.py` lines 40-50: absolute
difference of the two enum values, `float('inf')` (here `none`) when either
lookup raises `KeyError`. -/
def calculate_proximity_score (location_a location_b : String) : Score :=
  match locationValue location_a, locationValue location_b with
  | some va, some vb => some (va - vb).natAbs
  | _, _ => none

/-- `MIN_DURATION` of `ridecompletion.py` line 45. -/
def MIN_DURATION : Nat := 2

/-- `calculate_ride_duration` of `ridecompletion.py` lines 40-59: absolute
enum-value difference plus `MIN_DURATION`, with a fixed fallback of `10`
when either location lookup raises `KeyError`. -/
def calculate_ride_duration (source destination : String) : Nat :=
  match locationValue source, locationValue destination with
  | some vs, some vd => (vs - vd).natAbs + MIN_DURATION
  | _, _ => 10

/-- Python `<` on scores where `none` plays `float('inf')`:
`inf < x` is false, `x < inf` is true for finite `x`. -/
def scoreLt : Score → Score → Bool
  | some x, some y => x < y
  | some _, none => true
  | none, _ => false

theorem scoreLt_irrefl (a : Score) : scoreLt a a = false := by
  cases a <;> simp [scoreLt]

theorem scoreLt_asymm {a b : Score} (h : scoreLt a b = true) :
    scoreLt b a = false := by
  cases a <;> cases b <;> simp_all [scoreLt] <;> omega

theorem scoreLt_of_lt_of_not_lt {a b c : Score} (h1 : scoreLt a b = true)
    (h2 : scoreLt c b = false) : scoreLt a c = true := by
  cases a <;> cases b <;> cases c <;> simp_all [scoreLt] <;> omega

theorem scoreLt_false_trans {a b c : Score} (h1 : scoreLt b a = false)
    (h2 : scoreLt c b = false) : scoreLt c a = false := by
  cases a <;> cases b <;> cases c <;> simp_all [scoreLt] <;> omega

/-- One row of the `SELECT d.id, d.driver_id, d.name, d.current_location`
fetch in `find_best_driver` (`matchmaking.py` lines 61-69). -/
structure DriverRow where
  driver_pk_id : Nat
  driver_id : String
  driver_name : String
  current_location : String
deriving DecidableEq

/-- The `best_match` accumulator dict of `matchmaking.py` lines 74-79. -/
structure BestMatch where
  driver_pk_id : Option Nat
  driver_id : Option String
  driver_name : Option String
  min_distance : Score
deriving DecidableEq

/-- Initial `best_match`: all `None`, distance `float('inf')`. -/
def initBest : BestMatch := ⟨none, none, none, none⟩

/-- Body of the `for driver in available_drivers` loop of
`matchmaking.py` lines 82-93. -/
def scanStep (user_source_location : String) (bm : BestMatch)
    (d : DriverRow) : BestMatch :=
  let distance := calculate_proximity_score user_source_location d.current_location
  if scoreLt distance bm.min_distance then
    { driver_pk_id := some d.driver_pk_id
      driver_id := some d.driver_id
      driver_name := some d.driver_name
      min_distance := distance }
  else bm

/-- `find_best_driver` of `matchmaking.py` lines 52-99, over the list of
claimed available drivers: returns `(driver_pk_id, driver_id, driver_name,
min_distance)` or `none` for the all-`None` tuple. -/
def find_best_driver (user_source_location : String)
    (available_drivers : List DriverRow) :
    Option (Nat × String × String × Score) :=
  if available_drivers.isEmpty then none
  else
    let bm := available_drivers.foldl (scanStep user_source_location) initBest
    match bm.driver_pk_id, bm.driver_id, bm.driver_name with
    | some pk, some did, some name => some (pk, did, name, bm.min_distance)
    | _, _, _ => none

theorem scoreLt_some_of_true {a b : Score} (h : scoreLt a b = true) :
    ∃ m : Nat, a = some m := by
  cases a
  · simp [scoreLt] at h
  · exact ⟨_, rfl⟩

/-- Either the scan loop body leaves `best_match` untouched, or it installs
the scanned driver together with its (finite) distance. -/
theorem scanStep_eq_or (src : String) (bm : BestMatch) (d : DriverRow) :
    scanStep src bm d = bm ∨
    ∃ m : Nat, calculate_proximity_score src d.current_location = some m ∧
      scanStep src bm d =
        ⟨some d.driver_pk_id, some d.driver_id, some d.driver_name, some m⟩ := by
  by_cases h : scoreLt (calculate_proximity_score src d.current_location)
      bm.min_distance = true
  · obtain ⟨m, hm⟩ := scoreLt_some_of_true h
    right
    refine ⟨m, hm, ?_⟩
    rw [show scanStep src bm d =
      ⟨some d.driver_pk_id, some d.driver_id, some d.driver_name,
        calculate_proximity_score src d.current_location⟩ from by
        simp [scanStep, h], hm]
  · left
    simp [scanStep, h]

/-- After the whole driver scan, `best_match` is either the initial
accumulator or the record of some scanned driver with its finite distance. -/
theorem foldl_scanStep_cases (src : String) (l : List DriverRow)
    (bm : BestMatch) :
    l.foldl (scanStep src) bm = bm ∨
    ∃ d ∈ l, ∃ m : Nat,
      calculate_proximity_score src d.current_location = some m ∧
      l.foldl (scanStep src) bm =
        ⟨some d.driver_pk_id, some d.driver_id, some d.driver_name, some m⟩ := by
  induction l generalizing bm with
  | nil => exact Or.inl rfl
  | cons d l ih =>
    simp only [List.foldl_cons]
    rcases ih (scanStep src bm d) with h | ⟨e, he, m, hm, heq⟩
    · rw [h]
      rcases scanStep_eq_or src bm d with h2 | ⟨m, hm, h2⟩
      · exact Or.inl h2
      · exact Or.inr ⟨d, List.mem_cons_self d l, m, hm, h2⟩
    · exact Or.inr ⟨e, List.mem_cons_of_mem d he, m, hm, heq⟩

/-- After the scan, `min_distance` is a lower bound (in the order where
`none` is `float('inf')`) of every scanned driver's distance and of the
initial `min_distance`. -/
theorem foldl_scanStep_min_le (src : String) (l : List DriverRow)
    (bm : BestMatch) :
    (∀ d ∈ l, scoreLt (calculate_proximity_score src d.current_location)
        (l.foldl (scanStep src) bm).min_distance = false) ∧
    scoreLt bm.min_distance (l.foldl (scanStep src) bm).min_distance = false := by
  induction l generalizing bm with
  | nil => exact ⟨by simp, scoreLt_irrefl _⟩
  | cons d l ih =>
    simp only [List.foldl_cons]
    obtain ⟨ih1, ih2⟩ := ih (scanStep src bm d)
    have hstep : scoreLt (calculate_proximity_score src d.current_location)
        (scanStep src bm d).min_distance = false ∧
        scoreLt bm.min_distance (scanStep src bm d).min_distance = false := by
      by_cases h : scoreLt (calculate_proximity_score src d.current_location)
          bm.min_distance = true
      · have hsc : scanStep src bm d =
            ⟨some d.driver_pk_id, some d.driver_id, some d.driver_name,
              calculate_proximity_score src d.current_location⟩ := by
          simp [scanStep, h]
        rw [hsc]
        exact ⟨scoreLt_irrefl _, scoreLt_asymm h⟩
      · rw [Bool.not_eq_true] at h
        have hsc : scanStep src bm d = bm := by simp [scanStep, h]
        rw [hsc]
        exact ⟨h, scoreLt_irrefl _⟩
    refine ⟨?_, scoreLt_false_trans ih2 hstep.2⟩
    intro e he
    rcases List.mem_cons.mp he with rfl | he
    · exact scoreLt_false_trans ih2 hstep.1
    · exact ih1 e he

/-- Core specification of `find_best_driver`: as soon as one claimed driver
has a finite distance to the request source, the scan returns a claimed
driver whose distance is finite and minimal among all claimed drivers. -/
theorem find_best_driver_spec (src : String) (drivers : List DriverRow)
    (d0 : DriverRow) (h0 : d0 ∈ drivers) (k0 : Nat)
    (hfin : calculate_proximity_score src d0.current_location = some k0) :
    ∃ d ∈ drivers, ∃ m : Nat,
      calculate_proximity_score src d.current_location = some m ∧
      find_best_driver src drivers =
        some (d.driver_pk_id, d.driver_id, d.driver_name, some m) ∧
      ∀ e ∈ drivers, ∀ k : Nat,
        calculate_proximity_score src e.current_location = some k → m ≤ k := by
  have hne : drivers.isEmpty = false := by
    cases drivers
    · simp at h0
    · rfl
  rcases foldl_scanStep_cases src drivers initBest with h | ⟨d, hd, m, hm, heq⟩
  · exfalso
    have hb := (foldl_scanStep_min_le src drivers initBest).1 d0 h0
    rw [h, hfin] at hb
    simp [initBest, scoreLt] at hb
  · refine ⟨d, hd, m, hm, ?_, ?_⟩
    · simp only [find_best_driver, hne, Bool.false_eq_true, if_false, heq]
    · intro e he k hk
      have hb := (foldl_scanStep_min_le src drivers initBest).1 e he
      rw [heq, hk] at hb
      simp [scoreLt] at hb
      exact hb

/-- Whenever `find_best_driver` returns a driver, its primary key is the
primary key of one of the claimed drivers. -/
theorem find_best_driver_pk_mem (src : String) (drivers : List DriverRow)
    (pk : Nat) (did name : String) (sc : Score)
    (h : find_best_driver src drivers = some (pk, did, name, sc)) :
    ∃ d ∈ drivers, d.driver_pk_id = pk := by
  by_cases he : drivers.isEmpty
  · simp [find_best_driver, he] at h
  · rw [Bool.not_eq_true] at he
    rcases foldl_scanStep_cases src drivers initBest with hc | ⟨d, hd, m, hm, heq⟩
    · simp only [find_best_driver, he, Bool.false_eq_true, if_false, hc] at h
      simp [initBest] at h
    · simp only [find_best_driver, he, Bool.false_eq_true, if_false, heq] at h
      injection h with h
      exact ⟨d, hd, congrArg Prod.fst h⟩

/-- When every scanned driver is infinitely far, the scan loop leaves
`best_match` at its initial value. -/
theorem foldl_scanStep_all_inf (src : String) (l : List DriverRow)
    (bm : BestMatch)
    (h : ∀ d ∈ l, calculate_proximity_score src d.current_location = none) :
    l.foldl (scanStep src) bm = bm := by
  induction l generalizing bm with
  | nil => rfl
  | cons d l ih =>
    simp only [List.foldl_cons]
    have hd : scanStep src bm d = bm := by
      simp [scanStep, h d (List.mem_cons_self d l), scoreLt]
    rw [hd]
    exact ih _ fun e he => h e (List.mem_cons_of_mem d he)

/-- A request whose own source string is not a known zone gives every
driver an infinite proximity score. -/
theorem proximity_unknown_source (src loc : String)
    (h : locationValue src = none) :
    calculate_proximity_score src loc = none := by
  unfold calculate_proximity_score
  rw [h]

/-- With an unknown request source, `find_best_driver` selects nobody. -/
theorem find_best_driver_unknown_source (src : String)
    (drivers : List DriverRow) (h : locationValue src = none) :
    find_best_driver src drivers = none := by
  by_cases he : drivers.isEmpty
  · simp [find_best_driver, he]
  · rw [Bool.not_eq_true] at he
    have hall : ∀ d ∈ drivers,
        calculate_proximity_score src d.current_location = none :=
      fun d _ => proximity_unknown_source src d.current_location h
    simp only [find_best_driver, he, Bool.false_eq_true, if_false,
      foldl_scanStep_all_inf src drivers initBest hall]
    rfl

/-- `RideStatus` of `main.py` lines 24-28. -/
inductive RideStatus where
  | pending
  | matched
  | completed
  | cancelled
deriving DecidableEq

/-- `DriverStatus` of `main.py` lines 30-33 (`accepting`, `in a drive`,
`off`). -/
inductive DriverStatus where
  | accepting
  | in_a_drive
  | off
deriving DecidableEq

/-- One row of the `users` table (`main.py` lines 103-115). Timestamps are
abstract `Nat` instants. -/
structure UserRow where
  user_id : String
  source_location : String
  destination_location : String
  request_time : Nat
  request_status : RideStatus
  match_time : Option Nat
  completion_time : Option Nat
  driver_fk_id : Option Nat
deriving DecidableEq

/-- One row of the `drivers` table (`main.py` lines 92-100). -/
structure DriverDbRow where
  driver_id : String
  name : String
  status : DriverStatus
  current_location : String
deriving DecidableEq

/-- The shared store: both tables keyed by their serial primary keys. -/
structure DbState where
  users : Nat → Option UserRow
  drivers : Nat → Option DriverDbRow

/-- The successful-match transaction of `matchmaking.py` lines 142-166:
driver `dpk` goes `'in a drive'`; request `rid` goes `matched` with
`driver_fk_id = dpk` and `match_time = NOW()`. -/
def applyMatchCommit (s : DbState) (rid dpk t : Nat) : DbState where
  users := fun r =>
    if r = rid then
      (s.users r).map fun u =>
        { u with request_status := .matched, driver_fk_id := some dpk,
                 match_time := some t }
    else s.users r
  drivers := fun d =>
    if d = dpk then (s.drivers d).map fun row => { row with status := .in_a_drive }
    else s.drivers d

/-- The completion transaction of `ridecompletion.py` lines 112-133:
request `rid` goes `completed` with `completion_time = NOW()`; driver `dpk`
goes back to `'accepting'`. -/
def applyCompleteCommit (s : DbState) (rid dpk t : Nat) : DbState where
  users := fun r =>
    if r = rid then
      (s.users r).map fun u =>
        { u with request_status := .completed, completion_time := some t }
    else s.users r
  drivers := fun d =>
    if d = dpk then (s.drivers d).map fun row => { row with status := .accepting }
    else s.drivers d

/-- One transaction of the `while True` body of `process_matching_queue`
(`matchmaking.py` lines 112-174), for a claimed request `rid` and the list
`claimed` of drivers the `FOR UPDATE SKIP LOCKED` scan returned: if the
fetched row is not a pending request nothing was claimed; if
`find_best_driver` returns a driver the match is committed; otherwise the
transaction rolls back and the store is untouched. -/
def match_iteration (s : DbState) (rid : Nat) (claimed : List DriverRow)
    (t : Nat) : DbState :=
  match s.users rid with
  | none => s
  | some req =>
    if req.request_status = .pending then
      match find_best_driver req.source_location claimed with
      | some (dpk, _, _, _) => applyMatchCommit s rid dpk t
      | none => s
    else s

/-- One transaction of the `while True` body of `simulate_ride_completion`
(`ridecompletion.py` lines 71-134) for a claimed request `rid`: the query
only returns rows with `request_status = 'matched'` whose join on
`driver_fk_id` succeeds; then the completion is committed. -/
def complete_iteration (s : DbState) (rid t : Nat) : DbState :=
  match s.users rid with
  | none => s
  | some req =>
    if req.request_status = .matched then
      match req.driver_fk_id with
      | some dpk =>
        match s.drivers dpk with
        | some _ => applyCompleteCommit s rid dpk t
        | none => s
      | none => s
    else s

/-- Soundness of a claimed-driver list against the store: the
`SELECT ... FROM drivers WHERE status = 'accepting' FOR UPDATE SKIP LOCKED`
of `matchmaking.py` lines 61-68 only returns rows of the `drivers` table
currently in status `'accepting'`. -/
def claimedOk (s : DbState) (claimed : List DriverRow) : Prop :=
  ∀ d ∈ claimed, ∃ row : DriverDbRow,
    s.drivers d.driver_pk_id = some row ∧ row.status = .accepting ∧
    row.driver_id = d.driver_id ∧ row.name = d.driver_name ∧
    row.current_location = d.current_location

/-- Interleaving semantics of the two workers: any iteration of the
matching engine (with a soundly claimed driver list) or of the completion
simulator. -/
inductive Step : DbState → DbState → Prop where
  | match_step (s : DbState) (rid : Nat) (claimed : List DriverRow) (t : Nat)
      (hc : claimedOk s claimed) : Step s (match_iteration s rid claimed t)
  | complete_step (s : DbState) (rid t : Nat) :
      Step s (complete_iteration s rid t)

/-- Request `u` is a matched, not-yet-completed request referencing driver
primary key `dpk`. -/
def activelyRefs (u : UserRow) (dpk : Nat) : Prop :=
  u.request_status = .matched ∧ u.driver_fk_id = some dpk

/-- The double-booking invariant: no two non-completed matched requests
reference the same driver. -/
def doubleBookInv (s : DbState) : Prop :=
  ∀ r1 r2 dpk u1 u2, s.users r1 = some u1 → s.users r2 = some u2 →
    activelyRefs u1 dpk → activelyRefs u2 dpk → r1 = r2

/-- Auxiliary consistency: a driver referenced by a non-completed matched
request is never in status `'accepting'`. -/
def busyRefInv (s : DbState) : Prop :=
  ∀ r u dpk row, s.users r = some u → activelyRefs u dpk →
    s.drivers dpk = some row → row.status ≠ .accepting

/-- Per-row record invariant of the request lifecycle. -/
def recordInv (u : UserRow) : Prop :=
  (u.match_time ≠ none ↔
    (u.request_status = .matched ∨ u.request_status = .completed)) ∧
  (u.driver_fk_id ≠ none ↔
    (u.request_status = .matched ∨ u.request_status = .completed)) ∧
  (u.completion_time ≠ none ↔ u.request_status = .completed)

/-- The record invariant over every request row of a state. -/
def allRecordInv (s : DbState) : Prop :=
  ∀ r u, s.users r = some u → recordInv u

/-- A match commit on a driver that is currently `'accepting'` preserves
the double-booking and busy-driver invariants: by `busyRefInv`, an
`'accepting'` driver is referenced by no non-completed matched request, so
the new reference is the only one. -/
theorem applyMatchCommit_inv (s : DbState) (rid dpk t : Nat)
    (drow : DriverDbRow) (hdrow : s.drivers dpk = some drow)
    (hacc : drow.status = .accepting)
    (h1 : doubleBookInv s) (h2 : busyRefInv s) :
    doubleBookInv (applyMatchCommit s rid dpk t) ∧
    busyRefInv (applyMatchCommit s rid dpk t) := by
  have hnoref : ∀ r u, s.users r = some u → activelyRefs u dpk → False :=
    fun r u hru ha => h2 r u dpk drow hru ha hdrow hacc
  constructor
  · intro r1 r2 dpk' u1 u2 hu1 hu2 ha1 ha2
    simp only [applyMatchCommit] at hu1 hu2
    by_cases e1 : r1 = rid <;> by_cases e2 : r2 = rid
    · rw [e1, e2]
    · subst e1
      rw [if_pos rfl] at hu1
      rw [if_neg e2] at hu2
      obtain ⟨b1, hb1, rfl⟩ := Option.map_eq_some'.mp hu1
      obtain ⟨hm1, hfk1⟩ := ha2
      obtain ⟨_, hfk0⟩ := ha1
      simp only [Option.some_inj] at hfk0
      exact absurd (hnoref r2 u2 hu2 ⟨hm1, by rw [hfk1, ← hfk0]⟩) not_false
    · subst e2
      rw [if_pos rfl] at hu2
      rw [if_neg e1] at hu1
      obtain ⟨b2, hb2, rfl⟩ := Option.map_eq_some'.mp hu2
      obtain ⟨hm1, hfk1⟩ := ha1
      obtain ⟨_, hfk0⟩ := ha2
      simp only [Option.some_inj] at hfk0
      exact absurd (hnoref r1 u1 hu1 ⟨hm1, by rw [hfk1, ← hfk0]⟩) not_false
    · rw [if_neg e1] at hu1
      rw [if_neg e2] at hu2
      exact h1 r1 r2 dpk' u1 u2 hu1 hu2 ha1 ha2
  · intro r u dpk' row hru ha hrow
    simp only [applyMatchCommit] at hru hrow
    by_cases ed : dpk' = dpk
    · subst ed
      rw [if_pos rfl] at hrow
      rw [hdrow] at hrow
      obtain ⟨b, hb, rfl⟩ := Option.map_eq_some'.mp hrow
      intro hcontra
      simp at hcontra
    · rw [if_neg ed] at hrow
      by_cases er : r = rid
      · subst er
        rw [if_pos rfl] at hru
        obtain ⟨b, hb, rfl⟩ := Option.map_eq_some'.mp hru
        obtain ⟨_, hfk⟩ := ha
        simp only [Option.some_inj] at hfk
        exact absurd hfk.symm ed
      · rw [if_neg er] at hru
        exact h2 r u dpk' row hru ha hrow

/-- A completion commit preserves the double-booking and busy-driver
invariants: the completing request was, by `doubleBookInv`, the only
non-completed matched request referencing the freed driver. -/
theorem applyCompleteCommit_inv (s : DbState) (rid dpk t : Nat)
    (req : UserRow) (hu : s.users rid = some req)
    (hm : req.request_status = .matched)
    (hfk : req.driver_fk_id = some dpk)
    (h1 : doubleBookInv s) (h2 : busyRefInv s) :
    doubleBookInv (applyCompleteCommit s rid dpk t) ∧
    busyRefInv (applyCompleteCommit s rid dpk t) := by
  constructor
  · intro r1 r2 dpk' u1 u2 hu1 hu2 ha1 ha2
    simp only [applyCompleteCommit] at hu1 hu2
    by_cases e1 : r1 = rid
    · subst e1
      rw [if_pos rfl] at hu1
      obtain ⟨b1, hb1, rfl⟩ := Option.map_eq_some'.mp hu1
      obtain ⟨hm1, _⟩ := ha1
      simp at hm1
    · by_cases e2 : r2 = rid
      · subst e2
        rw [if_pos rfl] at hu2
        obtain ⟨b2, hb2, rfl⟩ := Option.map_eq_some'.mp hu2
        obtain ⟨hm2, _⟩ := ha2
        simp at hm2
      · rw [if_neg e1] at hu1
        rw [if_neg e2] at hu2
        exact h1 r1 r2 dpk' u1 u2 hu1 hu2 ha1 ha2
  · intro r u dpk' row hru ha hrow
    simp only [applyCompleteCommit] at hru hrow
    by_cases er : r = rid
    · subst er
      rw [if_pos rfl] at hru
      obtain ⟨b, hb, rfl⟩ := Option.map_eq_some'.mp hru
      obtain ⟨hm1, _⟩ := ha
      simp at hm1
    · rw [if_neg er] at hru
      by_cases ed : dpk' = dpk
      · subst ed
        exact absurd (h1 r rid dpk' u req hru hu ha ⟨hm, hfk⟩) er
      · rw [if_neg ed] at hrow
        exact h2 r u dpk' row hru ha hrow

/-- Every interleaved worker step preserves the conjunction of the
double-booking invariant and the busy-driver invariant. -/
theorem step_preserves_inv {s s' : DbState} (hstep : Step s s')
    (h1 : doubleBookInv s) (h2 : busyRefInv s) :
    doubleBookInv s' ∧ busyRefInv s' := by
  cases hstep with
  | match_step rid claimed t hc =>
    cases hu : s.users rid with
    | none => rw [show match_iteration s rid claimed t = s from by
        simp [match_iteration, hu]]; exact ⟨h1, h2⟩
    | some req =>
      by_cases hp : req.request_status = .pending
      · cases hf : find_best_driver req.source_location claimed with
        | none => rw [show match_iteration s rid claimed t = s from by
            simp [match_iteration, hu, hp, hf]]; exact ⟨h1, h2⟩
        | some res =>
          obtain ⟨dpk, did, name, sc⟩ := res
          rw [show match_iteration s rid claimed t = applyMatchCommit s rid dpk t from by
            simp [match_iteration, hu, hp, hf]]
          obtain ⟨d, hd, hdpk⟩ := find_best_driver_pk_mem _ _ _ _ _ _ hf
          obtain ⟨drow, hdrow, hacc, _, _, _⟩ := hc d hd
          rw [hdpk] at hdrow
          exact applyMatchCommit_inv s rid dpk t drow hdrow hacc h1 h2
      · rw [show match_iteration s rid claimed t = s from by
          simp [match_iteration, hu, hp]]
        exact ⟨h1, h2⟩
  | complete_step rid t =>
    cases hu : s.users rid with
    | none => rw [show complete_iteration s rid t = s from by
        simp [complete_iteration, hu]]; exact ⟨h1, h2⟩
    | some req =>
      by_cases hp : req.request_status = .matched
      · cases hfk : req.driver_fk_id with
        | none => rw [show complete_iteration s rid t = s from by
            simp [complete_iteration, hu, hp, hfk]]; exact ⟨h1, h2⟩
        | some dpk =>
          cases hdr : s.drivers dpk with
          | none => rw [show complete_iteration s rid t = s from by
              simp [complete_iteration, hu, hp, hfk, hdr]]; exact ⟨h1, h2⟩
          | some drow =>
            rw [show complete_iteration s rid t = applyCompleteCommit s rid dpk t from by
              simp [complete_iteration, hu, hp, hfk, hdr]]
            exact applyCompleteCommit_inv s rid dpk t req hu hp hfk h1 h2
      · rw [show complete_iteration s rid t = s from by
          simp [complete_iteration, hu, hp]]
        exact ⟨h1, h2⟩

/-- Both invariants hold in every state reachable by interleaved worker
steps from a state satisfying both. -/
theorem reachable_inv {s0 s : DbState}
    (hr : Relation.ReflTransGen Step s0 s)
    (h1 : doubleBookInv s0) (h2 : busyRefInv s0) :
    doubleBookInv s ∧ busyRefInv s := by
  induction hr with
  | refl => exact ⟨h1, h2⟩
  | tail _ hstep ih => exact step_preserves_inv hstep ih.1 ih.2

/-- A matching iteration either rolls back (store unchanged) or commits a
match for a claimed pending request and the driver the scan returned. -/
theorem match_iteration_cases (s : DbState) (rid : Nat)
    (claimed : List DriverRow) (t : Nat) :
    match_iteration s rid claimed t = s ∨
    ∃ req dpk did name sc, s.users rid = some req ∧
      req.request_status = .pending ∧
      find_best_driver req.source_location claimed = some (dpk, did, name, sc) ∧
      match_iteration s rid claimed t = applyMatchCommit s rid dpk t := by
  cases hu : s.users rid with
  | none => exact Or.inl (by simp [match_iteration, hu])
  | some req =>
    by_cases hp : req.request_status = .pending
    · cases hf : find_best_driver req.source_location claimed with
      | none => exact Or.inl (by simp [match_iteration, hu, hp, hf])
      | some res =>
        obtain ⟨dpk, did, name, sc⟩ := res
        exact Or.inr ⟨req, dpk, did, name, sc, rfl, hp, hf,
          by simp [match_iteration, hu, hp, hf]⟩
    · exact Or.inl (by simp [match_iteration, hu, hp])

/-- A completion iteration either rolls back (store unchanged) or commits
the completion of a claimed matched request with an existing driver. -/
theorem complete_iteration_cases (s : DbState) (rid t : Nat) :
    complete_iteration s rid t = s ∨
    ∃ req dpk drow, s.users rid = some req ∧
      req.request_status = .matched ∧ req.driver_fk_id = some dpk ∧
      s.drivers dpk = some drow ∧
      complete_iteration s rid t = applyCompleteCommit s rid dpk t := by
  cases hu : s.users rid with
  | none => exact Or.inl (by simp [complete_iteration, hu])
  | some req =>
    by_cases hp : req.request_status = .matched
    · cases hfk : req.driver_fk_id with
      | none => exact Or.inl (by simp [complete_iteration, hu, hp, hfk])
      | some dpk =>
        cases hdr : s.drivers dpk with
        | none => exact Or.inl (by simp [complete_iteration, hu, hp, hfk, hdr])
        | some drow =>
          exact Or.inr ⟨req, dpk, drow, rfl, hp, hfk, hdr,
            by simp [complete_iteration, hu, hp, hfk, hdr]⟩
    · exact Or.inl (by simp [complete_iteration, hu, hp])

/-- A match commit on a pending request keeps the record invariant: it sets
`request_status = 'matched'`, `driver_fk_id` and `match_time` together. -/
theorem applyMatchCommit_recordInv (s : DbState) (rid dpk t : Nat)
    (req : UserRow) (hu : s.users rid = some req)
    (hp : req.request_status = .pending)
    (hinv : allRecordInv s) : allRecordInv (applyMatchCommit s rid dpk t) := by
  intro r u hru
  simp only [applyMatchCommit] at hru
  by_cases er : r = rid
  · subst er
    rw [if_pos rfl, hu] at hru
    simp only [Option.map_some', Option.some_inj] at hru
    subst hru
    have old := hinv _ req hu
    unfold recordInv at old
    rw [hp] at old
    simp at old
    simp [recordInv, old.2.2]
  · rw [if_neg er] at hru
    exact hinv r u hru

/-- A completion commit on a matched request keeps the record invariant: it
sets `request_status = 'completed'` and `completion_time` together, leaving
`match_time` and `driver_fk_id` in place. -/
theorem applyCompleteCommit_recordInv (s : DbState) (rid dpk t : Nat)
    (req : UserRow) (hu : s.users rid = some req)
    (hp : req.request_status = .matched)
    (hinv : allRecordInv s) : allRecordInv (applyCompleteCommit s rid dpk t) := by
  intro r u hru
  simp only [applyCompleteCommit] at hru
  by_cases er : r = rid
  · subst er
    rw [if_pos rfl, hu] at hru
    simp only [Option.map_some', Option.some_inj] at hru
    subst hru
    have old := hinv _ req hu
    unfold recordInv at old
    rw [hp] at old
    simp at old
    simp [recordInv, old.1, old.2.1]
  · rw [if_neg er] at hru
    exact hinv r u hru

/-- Events a worker loop consumes: either a normal iteration (which rows
the `SKIP LOCKED` claims returned, and the commit instant), or an
exception raised inside the transaction. -/
inductive MatchEvent where
  | iter (rid : Nat) (claimed : List DriverRow) (t : Nat)
  | storeError
deriving DecidableEq

inductive CompleteEvent where
  | iter (rid : Nat) (t : Nat)
  | storeError
deriving DecidableEq

/-- `process_matching_queue` of `matchmaking.py` lines 102-182 over a
trace of iteration events. The `try` of line 111 wraps the whole
`while True`: an exception inside an iteration rolls back that
transaction (`with conn`), is logged by the `except` of lines 176-179,
and the function returns — the returned flag records whether the worker
terminated through that error path. -/
def process_matching_queue (s : DbState) :
    List MatchEvent → DbState × Bool
  | [] => (s, false)
  | .storeError :: _ => (s, true)
  | .iter rid claimed t :: rest =>
      process_matching_queue (match_iteration s rid claimed t) rest

/-- `simulate_ride_completion` of `ridecompletion.py` lines 61-142 over a
trace of iteration events, with the same outer `try/except` shape as the
matching worker (lines 70 and 136-139). -/
def simulate_ride_completion (s : DbState) :
    List CompleteEvent → DbState × Bool
  | [] => (s, false)
  | .storeError :: _ => (s, true)
  | .iter rid t :: rest =>
      simulate_ride_completion (complete_iteration s rid t) rest

/-- Seconds slept by one matching iteration: `time.sleep(1)` when no
pending request was fetched (`matchmaking.py` line 131), `time.sleep(2)`
after claiming a request but matching no driver (line 174), no sleep on a
successful match. -/
def match_iteration_sleep (s : DbState) (fetched : Option Nat)
    (claimed : List DriverRow) : Nat :=
  match fetched with
  | none => 1
  | some rid =>
    match s.users rid with
    | none => 0
    | some req =>
      match find_best_driver req.source_location claimed with
      | some _ => 0
      | none => 2

/-- Seconds the completion simulator sleeps for a claimed ride before the
completion commit (`ridecompletion.py` lines 107-110). -/
def completion_wait (req : UserRow) : Nat :=
  calculate_ride_duration req.source_location req.destination_location

/-- A pending ride request from the airport (request id 1 below). -/
def pendingReq : UserRow where
  user_id := "user_1"
  source_location := "Airport Terminal"
  destination_location := "Downtown Core"
  request_time := 0
  request_status := .pending
  match_time := none
  completion_time := none
  driver_fk_id := none

/-- A matched, not-yet-completed request referencing driver 5. -/
def matchedReq : UserRow where
  user_id := "user_0"
  source_location := "Downtown Core"
  destination_location := "Central Station"
  request_time := 0
  request_status := .matched
  match_time := some 1
  completion_time := none
  driver_fk_id := some 5

/-- The stored row of driver 5, currently `'accepting'` at the airport. -/
def driverRow5 : DriverDbRow where
  driver_id := "DRV5"
  name := "Eve"
  status := .accepting
  current_location := "Airport Terminal"

/-- Driver 5 as fetched by the `find_best_driver` scan. -/
def claimedRow5 : DriverRow := ⟨5, "DRV5", "Eve", "Airport Terminal"⟩

/-- A store with one pending request (id 1) and one accepting driver
(id 5). -/
def cleanState : DbState where
  users := fun r => if r = 1 then some pendingReq else none
  drivers := fun d => if d = 5 then some driverRow5 else none

/-- A store satisfying the double-booking invariant alone: request 0 is
matched to driver 5, yet driver 5 is still `'accepting'` (the busy-driver
consistency is violated), and request 1 is pending. -/
def badState : DbState where
  users := fun r =>
    if r = 0 then some matchedReq else if r = 1 then some pendingReq else none
  drivers := fun d => if d = 5 then some driverRow5 else none

/-- Request 1 after being matched to driver 5 at instant 2. -/
def steppedReq1 : UserRow :=
  { pendingReq with request_status := .matched, driver_fk_id := some 5,
                    match_time := some 2 }

/-- A driver fetched with a location string outside the zone enum. -/
def ghostDriver : DriverRow := ⟨7, "D7", "Ghost", "Atlantis"⟩

/-- The driver scan of the spec scenario: drivers at zone values
10, 20 and 50. -/
def scnDrivers : List DriverRow :=
  [⟨1, "D1", "Alice", "Downtown Core"⟩, ⟨2, "D2", "Bob", "Central Station"⟩,
   ⟨3, "D3", "Carol", "Airport Terminal"⟩]

/-- A pending request whose own source string is outside the zone enum. -/
def lostReq : UserRow := { pendingReq with source_location := "Atlantis" }

/-- A store with the unknown-source request 1 and accepting driver 5. -/
def lostState : DbState where
  users := fun r => if r = 1 then some lostReq else none
  drivers := fun d => if d = 5 then some driverRow5 else none

/-- C1 (amended): for a request whose source location is a known zone and a
non-empty list of claimed available drivers at least one of which is at a
known zone, `find_best_driver` returns a claimed driver whose distance
`|coordinate(source) - coordinate(driver.location)|` is minimal over all
claimed drivers (drivers at unknown locations scoring `float('inf')`);
ties go to the earlier fetched driver. -/
theorem find_best_driver_returns_min (src : String) (v0 : Int)
    (drivers : List DriverRow) (d0 : DriverRow) (w0 : Int)
    (hsrc : locationValue src = some v0) (h0 : d0 ∈ drivers)
    (hd0 : locationValue d0.current_location = some w0) :
    ∃ d ∈ drivers, ∃ m : Nat,
      find_best_driver src drivers =
        some (d.driver_pk_id, d.driver_id, d.driver_name, some m) ∧
      calculate_proximity_score src d.current_location = some m ∧
      ∀ e ∈ drivers, ∀ k : Nat,
        calculate_proximity_score src e.current_location = some k → m ≤ k := by
  have hfin : calculate_proximity_score src d0.current_location =
      some (v0 - w0).natAbs := by
    simp [calculate_proximity_score, hsrc, hd0]
  obtain ⟨d, hd, m, hm, hfb, hmin⟩ :=
    find_best_driver_spec src drivers d0 h0 _ hfin
  exact ⟨d, hd, m, hfb, hm, hmin⟩

/-- C1 counterexample: a request at the airport (zone value 50) with the
non-empty claimed driver list `[ghostDriver]` — `find_best_driver` returns
no driver at all, so it does not return a driver of minimal distance. -/
theorem find_best_driver_no_min_cex :
    locationValue "Airport Terminal" = some 50 ∧
    [ghostDriver] ≠ ([] : List DriverRow) ∧
    find_best_driver "Airport Terminal" [ghostDriver] = none := by
  decide

/-- C1 witness, the spec scenario: source at zone value 50, drivers at
{10, 20, 50} — the value-50 driver (pk 3) is selected at distance 0. -/
theorem find_best_driver_returns_min_witness :
    (∃ d ∈ scnDrivers, ∃ m : Nat,
      find_best_driver "Airport Terminal" scnDrivers =
        some (d.driver_pk_id, d.driver_id, d.driver_name, some m) ∧
      calculate_proximity_score "Airport Terminal" d.current_location = some m ∧
      ∀ e ∈ scnDrivers, ∀ k : Nat,
        calculate_proximity_score "Airport Terminal" e.current_location = some k →
          m ≤ k) ∧
    find_best_driver "Airport Terminal" scnDrivers =
      some (3, "D3", "Carol", some 0) :=
  ⟨find_best_driver_returns_min "Airport Terminal" 50 scnDrivers
      ⟨3, "D3", "Carol", "Airport Terminal"⟩ 50 (by decide) (by decide) (by decide),
   by decide⟩

/-- C2 counterexample: `badState` satisfies the double-booking invariant
(request 0 is the only non-completed matched request), one matching step
matches request 1 to the still-`'accepting'` driver 5, and afterwards
requests 0 and 1 both reference driver 5 — the invariant alone is not
preserved by a step, so the claim as stated fails. -/
theorem double_booking_cex :
    doubleBookInv badState ∧
    Step badState (match_iteration badState 1 [claimedRow5] 2) ∧
    ¬ doubleBookInv (match_iteration badState 1 [claimedRow5] 2) := by
  refine ⟨?_, ?_, ?_⟩
  · intro r1 r2 dpk u1 u2 h1 h2 ha1 ha2
    have key : ∀ r u, badState.users r = some u → activelyRefs u dpk → r = 0 := by
      intro r u h ha
      by_cases e0 : r = 0
      · exact e0
      · exfalso
        by_cases e1 : r = 1
        · subst e1
          simp [badState] at h
          rw [← h] at ha
          exact absurd ha.1 (by decide)
        · simp [badState, e0, e1] at h
    rw [key r1 u1 h1 ha1, key r2 u2 h2 ha2]
  · exact Step.match_step badState 1 [claimedRow5] 2 (by
      intro d hd
      simp only [List.mem_singleton] at hd
      subst hd
      exact ⟨driverRow5, by decide, by decide, rfl, rfl, rfl⟩)
  · intro hinv
    have h01 := hinv 0 1 5 matchedReq steppedReq1
      (by decide) (by decide) ⟨rfl, rfl⟩ ⟨rfl, rfl⟩
    exact absurd h01 (by decide)

/-- C2 (amended): from any state satisfying the double-booking invariant
together with the busy-driver consistency (a driver referenced by a
non-completed matched request is never `'accepting'`), every state
reachable by interleaved matching-engine and completion-simulator steps
satisfies the double-booking invariant: no two non-completed matched
requests reference the same `driver_fk_id`. -/
theorem double_booking_reachable (s0 s : DbState)
    (h1 : doubleBookInv s0) (h2 : busyRefInv s0)
    (hr : Relation.ReflTransGen Step s0 s) : doubleBookInv s :=
  (reachable_inv hr h1 h2).1

/-- C2 witness: one matching step from the consistent `cleanState`. -/
theorem double_booking_reachable_witness :
    doubleBookInv (match_iteration cleanState 1 [claimedRow5] 2) :=
  double_booking_reachable cleanState _
    (by
      intro r1 r2 dpk u1 u2 hu1 hu2 ha1 ha2
      exfalso
      by_cases e1 : r1 = 1
      · subst e1
        simp [cleanState] at hu1
        rw [← hu1] at ha1
        exact absurd ha1.1 (by decide)
      · simp [cleanState, e1] at hu1)
    (by
      intro r u dpk row hru ha hrow
      by_cases e1 : r = 1
      · subst e1
        simp [cleanState] at hru
        rw [← hru] at ha
        exact absurd ha.1 (by decide)
      · simp [cleanState, e1] at hru)
    (Relation.ReflTransGen.single (Step.match_step cleanState 1 [claimedRow5] 2 (by
      intro d hd
      simp only [List.mem_singleton] at hd
      subst hd
      exact ⟨driverRow5, by decide, by decide, rfl, rfl, rfl⟩)))

/-- C3: for locations `a` and `b` in the zone enum, the completion
simulator's service duration equals
`|coordinate a - coordinate b| + MIN_DURATION`, hence is at least
`MIN_DURATION`; and for any claimed ride between them, if the coordinate
difference is 15 the simulated wait before the completion commit is at
least 17 time units. -/
theorem ride_duration_formula (a b : String) (va vb : Int)
    (ha : locationValue a = some va) (hb : locationValue b = some vb) :
    calculate_ride_duration a b = (va - vb).natAbs + MIN_DURATION ∧
    MIN_DURATION ≤ calculate_ride_duration a b ∧
    ∀ req : UserRow, req.source_location = a → req.destination_location = b →
      (va - vb).natAbs = 15 → 17 ≤ completion_wait req := by
  have he : calculate_ride_duration a b = (va - vb).natAbs + MIN_DURATION := by
    simp [calculate_ride_duration, ha, hb]
  refine ⟨he, by rw [he]; omega, ?_⟩
  intro req h1 h2 h15
  unfold completion_wait
  rw [h1, h2, he, h15]
  decide

/-- C3 witness at zones of values 10 and 50. -/
theorem ride_duration_formula_witness :
    locationValue "Downtown Core" = some 10 ∧
    locationValue "Airport Terminal" = some 50 ∧
    (calculate_ride_duration "Downtown Core" "Airport Terminal" =
        ((10 : Int) - 50).natAbs + MIN_DURATION ∧
      MIN_DURATION ≤ calculate_ride_duration "Downtown Core" "Airport Terminal" ∧
      ∀ req : UserRow, req.source_location = "Downtown Core" →
        req.destination_location = "Airport Terminal" →
        ((10 : Int) - 50).natAbs = 15 → 17 ≤ completion_wait req) :=
  ⟨by decide, by decide,
   ride_duration_formula "Downtown Core" "Airport Terminal" 10 50
     (by decide) (by decide)⟩

/-- Helper for C4: the matching worker runs the error-free prefix, then the
erroring iteration rolls back and terminates the worker; the remaining
events are never processed. -/
theorem process_matching_queue_error :
    ∀ (pre : List MatchEvent) (s : DbState) (rest : List MatchEvent),
    MatchEvent.storeError ∉ pre →
    process_matching_queue s (pre ++ MatchEvent.storeError :: rest) =
      ((process_matching_queue s pre).1, true) := by
  intro pre
  induction pre with
  | nil => intro s rest _; rfl
  | cons e pre ih =>
    intro s rest hp
    cases e with
    | storeError => exact absurd (List.mem_cons_self _ _) hp
    | iter rid claimed t =>
      show process_matching_queue (match_iteration s rid claimed t)
          (pre ++ MatchEvent.storeError :: rest) =
        ((process_matching_queue (match_iteration s rid claimed t) pre).1, true)
      exact ih _ _ fun hm => hp (List.mem_cons_of_mem _ hm)

/-- Helper for C4: same shape for the completion worker. -/
theorem simulate_ride_completion_error :
    ∀ (pre : List CompleteEvent) (s : DbState) (rest : List CompleteEvent),
    CompleteEvent.storeError ∉ pre →
    simulate_ride_completion s (pre ++ CompleteEvent.storeError :: rest) =
      ((simulate_ride_completion s pre).1, true) := by
  intro pre
  induction pre with
  | nil => intro s rest _; rfl
  | cons e pre ih =>
    intro s rest hp
    cases e with
    | storeError => exact absurd (List.mem_cons_self _ _) hp
    | iter rid t =>
      show simulate_ride_completion (complete_iteration s rid t)
          (pre ++ CompleteEvent.storeError :: rest) =
        ((simulate_ride_completion (complete_iteration s rid t) pre).1, true)
      exact ih _ _ fun hm => hp (List.mem_cons_of_mem _ hm)

/-- C4 counterexample: a single erroring iteration terminates the matching
worker (termination flag `true`) with the claimed request rolled back to
pending, and the following iteration — which on its own would have matched
request 1 — is never executed; the loop does not continue. -/
theorem worker_error_terminates_cex :
    (process_matching_queue cleanState
        [MatchEvent.storeError, MatchEvent.iter 1 [claimedRow5] 2]).2 = true ∧
    (process_matching_queue cleanState
        [MatchEvent.storeError, MatchEvent.iter 1 [claimedRow5] 2]).1.users 1 =
      some pendingReq ∧
    (process_matching_queue cleanState [MatchEvent.iter 1 [claimedRow5] 2]).2 =
      false ∧
    (process_matching_queue cleanState
        [MatchEvent.iter 1 [claimedRow5] 2]).1.users 1 = some steppedReq1 := by
  decide

/-- C4 (amended): an error inside a worker iteration is rolled back — the
resulting store is exactly the one the error-free prefix produced — but it
terminates the worker: the loop does not continue to its next iteration
and the remaining trace is never executed (both workers). -/
theorem worker_error_rolls_back_and_terminates (s : DbState)
    (pre rest : List MatchEvent) (preC restC : List CompleteEvent)
    (hp : MatchEvent.storeError ∉ pre)
    (hpC : CompleteEvent.storeError ∉ preC) :
    process_matching_queue s (pre ++ MatchEvent.storeError :: rest) =
      ((process_matching_queue s pre).1, true) ∧
    simulate_ride_completion s (preC ++ CompleteEvent.storeError :: restC) =
      ((simulate_ride_completion s preC).1, true) :=
  ⟨process_matching_queue_error pre s rest hp,
   simulate_ride_completion_error preC s restC hpC⟩

/-- C4 witness: one normal matching iteration, then an error. -/
theorem worker_error_rolls_back_and_terminates_witness :
    MatchEvent.storeError ∉ [MatchEvent.iter 1 [claimedRow5] 2] ∧
    CompleteEvent.storeError ∉ ([] : List CompleteEvent) ∧
    (process_matching_queue cleanState
        ([MatchEvent.iter 1 [claimedRow5] 2] ++ [MatchEvent.storeError]) =
      ((process_matching_queue cleanState
          [MatchEvent.iter 1 [claimedRow5] 2]).1, true) ∧
     simulate_ride_completion cleanState
        ([] ++ [CompleteEvent.storeError]) =
      ((simulate_ride_completion cleanState []).1, true)) :=
  ⟨by decide, by decide,
   worker_error_rolls_back_and_terminates cleanState
     [MatchEvent.iter 1 [claimedRow5] 2] [] [] [] (by decide) (by decide)⟩

/-- C5: every matching-engine or completion-simulator step preserves the
request-record invariant — `match_time` non-null iff status is matched or
completed, `driver_fk_id` non-null iff status is matched or completed,
`completion_time` non-null iff status is completed. -/
theorem commit_preserves_recordInv (s s' : DbState) (hstep : Step s s')
    (hinv : allRecordInv s) : allRecordInv s' := by
  cases hstep with
  | match_step rid claimed t hc =>
    rcases match_iteration_cases s rid claimed t with
      heq | ⟨req, dpk, did, name, sc, hu, hp, hf, heq⟩
    · rw [heq]; exact hinv
    · rw [heq]; exact applyMatchCommit_recordInv s rid dpk t req hu hp hinv
  | complete_step rid t =>
    rcases complete_iteration_cases s rid t with
      heq | ⟨req, dpk, drow, hu, hp, hfk, hdr, heq⟩
    · rw [heq]; exact hinv
    · rw [heq]; exact applyCompleteCommit_recordInv s rid dpk t req hu hp hinv

/-- C5 witness: the record invariant survives the matching commit on
`cleanState`. -/
theorem commit_preserves_recordInv_witness :
    allRecordInv (match_iteration cleanState 1 [claimedRow5] 2) :=
  commit_preserves_recordInv cleanState _
    (Step.match_step cleanState 1 [claimedRow5] 2 (by
      intro d hd
      simp only [List.mem_singleton] at hd
      subst hd
      exact ⟨driverRow5, by decide, by decide, rfl, rfl, rfl⟩))
    (by
      intro r u hru
      by_cases e1 : r = 1
      · subst e1
        simp [cleanState] at hru
        rw [← hru]
        unfold recordInv
        decide
      · simp [cleanState, e1] at hru)

/-- C6: a matching iteration that claims a pending request but whose
claimed available-driver list is empty rolls back without mutating any
row: the store is unchanged and the request row is still there, pending,
for the next iteration; no error is raised. -/
theorem no_driver_rolls_back (s : DbState) (rid t : Nat) (req : UserRow)
    (hu : s.users rid = some req) (hp : req.request_status = .pending) :
    match_iteration s rid [] t = s ∧
    (match_iteration s rid [] t).users rid = some req := by
  have heq : match_iteration s rid [] t = s := by
    simp [match_iteration, hu, hp, find_best_driver]
  exact ⟨heq, by rw [heq]; exact hu⟩

/-- C6 witness on `cleanState`. -/
theorem no_driver_rolls_back_witness :
    match_iteration cleanState 1 [] 3 = cleanState ∧
    (match_iteration cleanState 1 [] 3).users 1 = some pendingReq :=
  no_driver_rolls_back cleanState 1 3 pendingReq (by decide) rfl

/-- C7: a claimed driver whose location string is outside the zone enum
gets an infinite proximity score (`float('inf')`, here `none`), and as
long as some claimed driver has a finite distance, the scan still returns
a driver — the attempt is not aborted — and the returned driver is never
the unknown-location one (driver primary keys assumed distinct, as they
are table keys). -/
theorem unknown_location_driver_disqualified (src : String)
    (drivers : List DriverRow) (d0 dF : DriverRow) (kF : Nat)
    (h0 : d0 ∈ drivers) (hbad : locationValue d0.current_location = none)
    (hF : dF ∈ drivers)
    (hfin : calculate_proximity_score src dF.current_location = some kF)
    (hnd : (drivers.map DriverRow.driver_pk_id).Nodup) :
    calculate_proximity_score src d0.current_location = none ∧
    ∃ d ∈ drivers, ∃ m : Nat,
      find_best_driver src drivers =
        some (d.driver_pk_id, d.driver_id, d.driver_name, some m) ∧
      d.driver_pk_id ≠ d0.driver_pk_id := by
  have hinf : calculate_proximity_score src d0.current_location = none := by
    cases hsrc : locationValue src <;>
      simp [calculate_proximity_score, hsrc, hbad]
  obtain ⟨d, hd, m, hm, hfb, hmin⟩ :=
    find_best_driver_spec src drivers dF hF kF hfin
  refine ⟨hinf, d, hd, m, hfb, fun hpk => ?_⟩
  have hdd : d = d0 := List.inj_on_of_nodup_map hnd hd h0 hpk
  rw [hdd, hinf] at hm
  exact Option.noConfusion hm

/-- C7 witness: the ghost driver among the three zone drivers is never
selected; Carol at distance 0 is. -/
theorem unknown_location_driver_disqualified_witness :
    (calculate_proximity_score "Airport Terminal"
        ghostDriver.current_location = none ∧
      ∃ d ∈ ghostDriver :: scnDrivers, ∃ m : Nat,
        find_best_driver "Airport Terminal" (ghostDriver :: scnDrivers) =
          some (d.driver_pk_id, d.driver_id, d.driver_name, some m) ∧
        d.driver_pk_id ≠ ghostDriver.driver_pk_id) ∧
    find_best_driver "Airport Terminal" (ghostDriver :: scnDrivers) =
      some (3, "D3", "Carol", some 0) :=
  ⟨unknown_location_driver_disqualified "Airport Terminal"
      (ghostDriver :: scnDrivers) ghostDriver
      ⟨3, "D3", "Carol", "Airport Terminal"⟩ 0
      (by decide) (by decide) (by decide) (by decide) (by decide),
   by decide⟩

/-- C8 counterexample: with an unknown source the computed duration is the
fixed fallback 10, strictly below the duration 42 of the maximal zone
distance 40 — the unknown location is not treated as worst case. -/
theorem fallback_duration_cex :
    locationValue "Atlantis" = none ∧
    calculate_ride_duration "Atlantis" "Airport Terminal" = 10 ∧
    calculate_ride_duration "Downtown Core" "Airport Terminal" = 42 ∧
    calculate_ride_duration "Atlantis" "Airport Terminal" <
      calculate_ride_duration "Downtown Core" "Airport Terminal" := by
  decide

/-- C8 (amended): when either location string given to the duration
computation is outside the zone enum, the worker is not crashed — the
computation totalises to the fixed fallback duration 10, not to a
worst-case duration. -/
theorem unknown_location_fallback (a b : String)
    (h : locationValue a = none ∨ locationValue b = none) :
    calculate_ride_duration a b = 10 := by
  cases ha : locationValue a <;> cases hb : locationValue b <;>
    simp [calculate_ride_duration, ha, hb] <;>
    rcases h with h | h <;> simp_all

/-- C8 witness. -/
theorem unknown_location_fallback_witness :
    (locationValue "Atlantis" = none ∨
      locationValue "Downtown Core" = none) ∧
    calculate_ride_duration "Atlantis" "Downtown Core" = 10 :=
  ⟨Or.inl (by decide),
   unknown_location_fallback "Atlantis" "Downtown Core" (Or.inl (by decide))⟩

/-- C9 counterexample: on `cleanState` the back-off after claiming request
1 and finding no claimable driver is `time.sleep(2)` while the idle sleep
with no pending request is `time.sleep(1)` — the back-off is not strictly
shorter than the idle interval. -/
theorem backoff_not_shorter_cex :
    match_iteration_sleep cleanState (some 1) [] = 2 ∧
    match_iteration_sleep cleanState none [] = 1 ∧
    ¬ match_iteration_sleep cleanState (some 1) [] <
        match_iteration_sleep cleanState none [] := by
  decide

/-- C9 (amended): the matching engine's back-off after claiming a request
and matching no driver (2s) is strictly longer than — not shorter than —
the idle interval used when no pending request exists (1s). -/
theorem idle_shorter_than_backoff (s : DbState) (rid : Nat) (req : UserRow)
    (claimed : List DriverRow) (hu : s.users rid = some req)
    (hf : find_best_driver req.source_location claimed = none) :
    match_iteration_sleep s none claimed <
      match_iteration_sleep s (some rid) claimed := by
  simp [match_iteration_sleep, hu, hf]

/-- C9 witness. -/
theorem idle_shorter_than_backoff_witness :
    match_iteration_sleep cleanState none [] <
      match_iteration_sleep cleanState (some 1) [] :=
  idle_shorter_than_backoff cleanState 1 pendingReq [] (by decide) (by decide)

/-- C10: a request whose own source string is outside the zone enum makes
every driver's distance infinite, so `find_best_driver` returns no driver
even when drivers at valid zones are claimed, and the matching iteration
leaves the store unchanged — the request stays pending and is never
matched. -/
theorem unknown_source_stays_pending (src : String)
    (drivers : List DriverRow) (s : DbState) (rid : Nat) (req : UserRow)
    (claimed : List DriverRow) (t : Nat)
    (h : locationValue src = none) (hu : s.users rid = some req)
    (hsrc : req.source_location = src) :
    find_best_driver src drivers = none ∧
    match_iteration s rid claimed t = s := by
  refine ⟨find_best_driver_unknown_source src drivers h, ?_⟩
  have hnone : find_best_driver req.source_location claimed = none := by
    rw [hsrc]
    exact find_best_driver_unknown_source src claimed h
  by_cases hp : req.request_status = .pending
  · simp [match_iteration, hu, hp, hnone]
  · simp [match_iteration, hu, hp]

/-- C10 witness: the Atlantis request is not matched although the three
zone drivers are claimable. -/
theorem unknown_source_stays_pending_witness :
    find_best_driver "Atlantis" scnDrivers = none ∧
    match_iteration lostState 1 scnDrivers 9 = lostState :=
  unknown_source_stays_pending "Atlantis" scnDrivers lostState 1 lostReq
    scnDrivers 9 (by decide) (by decide) (by decide)

end UberRp
